import Mathlib

/-!
# Shallow embedding of the N-body solver core

This file embeds the core of the `N-body_solver` repository
(`src/core/particle_data.py`, `src/integrators/euler.py`,
`src/integrators/leapfrog.py`, `src/integrators/rk4.py`,
`src/simulation/particle_system.py`, `src/simulation/simulation.py`)
into Lean 4 and proves the specification claims about it.  The concrete
direct force calculator that the package exports from `src.physics` is
absent from the source tree, so it is modelled from the spec (§4.2);
see the doc comment of `magnitude`.

Modelling conventions:
* Python/numpy floating-point scalars are modelled as elements of a field
  `K` (instantiated at `ℚ` for executable witnesses and at `ℝ` for the
  force/potential formulas, which involve a Euclidean norm).
* A numpy row of shape `(3,)` is a `Vec3 K`; an `(n, 3)` array is a
  `List (Vec3 K)`; the `(n, 1)` masses column is a `List K` (one scalar
  per row).  The numpy elementwise `+`, `-`, `*`, `**2`, scalar
  multiplication and row-by-column broadcasting (`forces / masses`) are
  modelled componentwise / rowwise.
* In-place mutation of `system.data.<field>` is modelled by state
  passing: each Python assignment becomes a `let` rebinding the record.
-/

/-- A numpy row of shape `(3,)`: one 3-dimensional vector. -/
structure Vec3 (K : Type) where
  x : K
  y : K
  z : K
deriving DecidableEq, Repr

instance (K : Type) [Zero K] : Zero (Vec3 K) := ⟨⟨0, 0, 0⟩⟩

instance (K : Type) [Add K] : Add (Vec3 K) :=
  ⟨fun a b => ⟨a.x + b.x, a.y + b.y, a.z + b.z⟩⟩

instance (K : Type) [Neg K] : Neg (Vec3 K) :=
  ⟨fun a => ⟨-a.x, -a.y, -a.z⟩⟩

instance (K : Type) [Sub K] : Sub (Vec3 K) :=
  ⟨fun a b => ⟨a.x - b.x, a.y - b.y, a.z - b.z⟩⟩

/-- numpy elementwise product of two `(3,)` rows (also models `v ** 2`
as `v * v`). -/
instance (K : Type) [Mul K] : Mul (Vec3 K) :=
  ⟨fun a b => ⟨a.x * b.x, a.y * b.y, a.z * b.z⟩⟩

/-- numpy scalar · row broadcasting. -/
instance (K : Type) [Mul K] : SMul K (Vec3 K) :=
  ⟨fun c a => ⟨c * a.x, c * a.y, c * a.z⟩⟩

/-- numpy row / scalar broadcasting. -/
def Vec3.divS (K : Type) [Div K] (a : Vec3 K) (c : K) : Vec3 K :=
  ⟨a.x / c, a.y / c, a.z / c⟩

/-- numpy elementwise sum of two `(n, 3)` arrays. -/
def rowsAdd (K : Type) [Add K] (a b : List (Vec3 K)) : List (Vec3 K) :=
  List.zipWith (· + ·) a b

/-- numpy `(n, 3)` array · scalar broadcasting (`rows * dt`). -/
def rowsScale (K : Type) [Mul K] (c : K) (a : List (Vec3 K)) : List (Vec3 K) :=
  a.map (fun v => c • v)

/-- numpy `(n, 3) / (n, 1)` broadcasting (`forces / masses`): row `i` of
the result is row `i` of `forces` divided by the scalar in row `i` of the
masses column. -/
def rowsDivCol (K : Type) [Div K] (a : List (Vec3 K)) (m : List K) : List (Vec3 K) :=
  List.zipWith (fun v c => Vec3.divS K v c) a m

/-- Embedding of `ParticleData` (`src/core/particle_data.py`) after a successful
construction: `masses` is the `(n, 1)` column (one scalar per row),
the other three fields are `(n, 3)` arrays.  The `Optional` forces field
is resolved at construction (`mkParticleData` below), so it is total
here. -/
structure ParticleData (K : Type) where
  masses : List K
  positions : List (Vec3 K)
  velocities : List (Vec3 K)
  forces : List (Vec3 K)
deriving DecidableEq, Repr

/-- Embedding of `ParticleData.n_particles`: `len(self.masses)`, the number of rows
of the masses column. -/
def ParticleData.n_particles (K : Type) (d : ParticleData K) : Nat :=
  d.masses.length

/-- Embedding of `ParticleSystem` (`src/simulation/particle_system.py`): a particle
state coupled with a force calculator.  The `calc_force` method of the
calculator is embedded as a function from states to `(n, 3)` force
arrays. -/
structure ParticleSystem (K : Type) where
  data : ParticleData K
  force_calculator : ParticleData K → List (Vec3 K)

/-- Embedding of `ParticleSystem.calc_forces`, that is
`self.data.forces = self.force_calculator.calc_force(self.data)`.
The Python method also returns the new forces; integrators ignore that
return value, so the embedding returns the updated system. -/
def ParticleSystem.calc_forces (K : Type) (s : ParticleSystem K) : ParticleSystem K :=
  { s with data := { s.data with forces := s.force_calculator s.data } }

/-- Embedding of `ParticleSystem.calc_keenetic_energy` (`src/simulation/particle_system.py`,
lines 18–22), embedded exactly as written: the accumulator starts as the
Python float `0.0` and the numpy broadcast `0.0 + masses[i]*velocities[i]**2/2.0`
turns it into a `(3,)` row at the first iteration, so the embedded
accumulator is a `Vec3 K` starting at the zero row.  Note that the
per-body term multiplies the mass by the *componentwise square* of the
velocity row. -/
def ParticleSystem.calc_keenetic_energy (K : Type) [Field K] (s : ParticleSystem K) : Vec3 K :=
  (List.range (ParticleData.n_particles K s.data)).foldl
    (fun ke i =>
      ke + Vec3.divS K ((s.data.masses.getD i 0) • ((s.data.velocities.getD i 0) * (s.data.velocities.getD i 0))) 2)
    0

/-- Embedding of `ExplicitEulerIntegrator.step` (`src/integrators/euler.py`):
positions are updated first (with the old velocities), then velocities
(with the *stored* forces), then forces are recomputed at the new
positions. -/
def ExplicitEulerIntegrator.step (K : Type) [Field K] (s : ParticleSystem K) (dt : K) :
    ParticleSystem K :=
  let s1 := { s with data := { s.data with
    positions := rowsAdd K s.data.positions (rowsScale K dt s.data.velocities) } }
  let s2 := { s1 with data := { s1.data with
    velocities := rowsAdd K s1.data.velocities
      (rowsScale K dt (rowsDivCol K s1.data.forces s1.data.masses)) } }
  ParticleSystem.calc_forces K s2

/-- Embedding of `LFIntegrator.step` (`src/integrators/leapfrog.py`): kick (half),
drift, kick (half), with a force recomputation before each kick. -/
def LFIntegrator.step (K : Type) [Field K] (s : ParticleSystem K) (dt : K) :
    ParticleSystem K :=
  let sa := ParticleSystem.calc_forces K s
  let accelerations := rowsDivCol K sa.data.forces sa.data.masses
  let sb := { sa with data := { sa.data with
    velocities := rowsAdd K sa.data.velocities (rowsScale K (dt / 2) accelerations) } }
  let sc := { sb with data := { sb.data with
    positions := rowsAdd K sb.data.positions (rowsScale K dt sb.data.velocities) } }
  let sd := ParticleSystem.calc_forces K sc
  let accelerations2 := rowsDivCol K sd.data.forces sd.data.masses
  { sd with data := { sd.data with
    velocities := rowsAdd K sd.data.velocities (rowsScale K (dt / 2) accelerations2) } }

/-- Embedding of `RK4Integrator.step` (`src/integrators/rk4.py`), statement by
statement: four stages, each recomputing forces at intermediate
positions, then the weighted combination, then a final force
recomputation. -/
def RK4Integrator.step (K : Type) [Field K] (s : ParticleSystem K) (dt : K) :
    ParticleSystem K :=
  let pos0 := s.data.positions
  let vel0 := s.data.velocities
  let s1 := ParticleSystem.calc_forces K s
  let k1_v := rowsDivCol K s1.data.forces s1.data.masses
  let k1_x := s1.data.velocities
  let s2a := { s1 with data := { s1.data with
    positions := rowsAdd K pos0 (rowsScale K (dt / 2) k1_x) } }
  let s2b := { s2a with data := { s2a.data with
    velocities := rowsAdd K vel0 (rowsScale K (dt / 2) k1_v) } }
  let s2 := ParticleSystem.calc_forces K s2b
  let k2_v := rowsDivCol K s2.data.forces s2.data.masses
  let k2_x := s2.data.velocities
  let s3a := { s2 with data := { s2.data with
    positions := rowsAdd K pos0 (rowsScale K (dt / 2) k2_x) } }
  let s3b := { s3a with data := { s3a.data with
    velocities := rowsAdd K vel0 (rowsScale K (dt / 2) k2_v) } }
  let s3 := ParticleSystem.calc_forces K s3b
  let k3_v := rowsDivCol K s3.data.forces s3.data.masses
  let k3_x := s3.data.velocities
  let s4a := { s3 with data := { s3.data with
    positions := rowsAdd K pos0 (rowsScale K dt k3_x) } }
  let s4b := { s4a with data := { s4a.data with
    velocities := rowsAdd K vel0 (rowsScale K dt k3_v) } }
  let s4 := ParticleSystem.calc_forces K s4b
  let k4_v := rowsDivCol K s4.data.forces s4.data.masses
  let k4_x := s4.data.velocities
  let s5a := { s4 with data := { s4.data with
    positions := rowsAdd K pos0 (rowsScale K (dt / 6)
      (rowsAdd K (rowsAdd K (rowsAdd K k1_x (rowsScale K 2 k2_x)) (rowsScale K 2 k3_x)) k4_x)) } }
  let s5b := { s5a with data := { s5a.data with
    velocities := rowsAdd K vel0 (rowsScale K (dt / 6)
      (rowsAdd K (rowsAdd K (rowsAdd K k1_v (rowsScale K 2 k2_v)) (rowsScale K 2 k3_v)) k4_v)) } }
  ParticleSystem.calc_forces K s5b

/-- Embedding of `SimulationParameters` (`src/simulation/parameters.py`). -/
structure SimulationParameters (K : Type) where
  force_calculator : ParticleData K → List (Vec3 K)
  integrator : ParticleSystem K → K → ParticleSystem K
  dt : K

/-- Embedding of `Simulation.__init__` (`src/simulation/simulation.py`): wraps the
given state in a `ParticleSystem`, stores integrator and `dt`, sets
`time = 0.0`.  It performs no force computation. -/
structure Simulation (K : Type) where
  system : ParticleSystem K
  integrator : ParticleSystem K → K → ParticleSystem K
  dt : K
  time : K

/-- The `Simulation` constructor. -/
def Simulation.init (K : Type) [Field K] (data : ParticleData K) (sim_params : SimulationParameters K) :
    Simulation K :=
  { system := { data := data, force_calculator := sim_params.force_calculator }
    integrator := sim_params.integrator
    dt := sim_params.dt
    time := 0 }

/-- Embedding of `Simulation.step`: one integrator step, then `time += dt`. -/
def Simulation.step (K : Type) [Field K] (sim : Simulation K) : Simulation K :=
  { sim with system := sim.integrator sim.system sim.dt, time := sim.time + sim.dt }

/-- Embedding of `Simulation.get_data`: the live state reference. -/
def Simulation.get_data (K : Type) (sim : Simulation K) : ParticleData K :=
  sim.system.data

/-- Gravitational constant.  Modelled from the spec: the constants module
of the repository (`src/core`, re-exported as `G`) is not present in the
source tree; §6 of the spec fixes `G = 6.674e-11` (SI). -/
noncomputable def G : ℝ := 6.674e-11

/-- Modelled from the spec: the Euclidean norm of a `(3,)` row, giving
the separation `|rⱼ − rᵢ|` of §4.2.  What is missing from the source
tree: the concrete direct force calculator that `src/__init__.py`
re-exports from `src.physics` and that the examples, tests and
`ParticleSystem.calc_forces` invoke through `calc_force` — only its
abstract declaration (`src/physics/force_calculator.py`) and its
callers are present.  (The draft class of the same name in
`src/ForceCalculator.py` is dead code and cannot be the deciding
implementation: the live system calls `calc_force`, which that draft
does not define, and the `r.magnitude` attribute the draft reads does
not exist on numpy arrays, so the draft raises AttributeError if ever
invoked.) -/
noncomputable def magnitude (r : Vec3 ℝ) : ℝ :=
  Real.sqrt (r.x ^ 2 + r.y ^ 2 + r.z ^ 2)

/-- Modelled from the spec (§4.2): the gravitational force on body `i`
due to body `j`, `G · mᵢ · mⱼ / |rⱼ − rᵢ|³ · (rⱼ − rᵢ)` — the
per-ordered-pair contribution of the missing direct calculator (see
`magnitude`), and the loop body of `calc_force` below. -/
noncomputable def DirectForceCalculator.pairForce (d : ParticleData ℝ) (i j : Nat) :
    Vec3 ℝ :=
  let r := d.positions.getD j 0 - d.positions.getD i 0
  (G * d.masses.getD i 0 * d.masses.getD j 0 / magnitude r ^ 3) • r

/-- Modelled from the spec: `DirectForceCalculator.calc_force`, the
concrete method missing from the source tree (see `magnitude`).
Per §4.2, for every ordered pair `(i, j)` with `i ≠ j` it computes the
gravitational force on `i` due to `j` as `pairForce` above and sums
over all `j` for each `i` — the direct `O(N²)` summation with no
self-term and no softening, realised as the double loop the spec
describes: row `i` accumulates `pairForce d i j` over `j = 0, …, n-1`,
skipping `j = i`. -/
noncomputable def DirectForceCalculator.calc_force (d : ParticleData ℝ) :
    List (Vec3 ℝ) :=
  (List.range (ParticleData.n_particles ℝ d)).map (fun i =>
    (List.range (ParticleData.n_particles ℝ d)).foldl
      (fun acc j => if i = j then acc else acc + DirectForceCalculator.pairForce d i j) 0)

/-- Modelled from the spec (§4.2): the per-ordered-pair potential term
`−G · mᵢ · mⱼ / |rⱼ − rᵢ|` of the missing direct calculator (see
`magnitude`), and the loop body of `calc_potential_energy` below. -/
noncomputable def DirectForceCalculator.pairPotential (d : ParticleData ℝ) (i j : Nat) : ℝ :=
  -G * d.masses.getD i 0 * d.masses.getD j 0 /
    magnitude (d.positions.getD j 0 - d.positions.getD i 0)

/-- Modelled from the spec: `DirectForceCalculator.calc_potential_energy`,
the concrete method missing from the source tree (see `magnitude`).
Per §4.2 it is the sum over all ordered pairs `i ≠ j` of
`−G · mᵢ · mⱼ / |rⱼ − rᵢ|`, with the double-counted sum halved:
the accumulator starts at `0.0`, the double loop skips the `i = j`
diagonal, and the total is divided by `2` before being returned. -/
noncomputable def DirectForceCalculator.calc_potential_energy (d : ParticleData ℝ) : ℝ :=
  ((List.range (ParticleData.n_particles ℝ d)).foldl
    (fun u i =>
      (List.range (ParticleData.n_particles ℝ d)).foldl
        (fun u2 j => if i = j then u2 else u2 + DirectForceCalculator.pairPotential d i j) u)
    0) / 2

/-- A raw numpy array argument as passed to the `ParticleData`
constructor: either one-dimensional (`np.array([a, b, …])`) or
two-dimensional (`np.array([[…], …])`).  Ragged nested lists are
rejected by `np.array` itself before `ParticleData` runs, so only
rectangular arrays are modelled; for a rectangular 2-D array the numpy
shape test `arr.shape == (n, c)` is exactly `rows.length = n` together
with every row having length `c`. -/
inductive NpArray (K : Type) where
  | arr1 : List K → NpArray K
  | arr2 : List (List K) → NpArray K
deriving DecidableEq, Repr

/-- Python `len(arr)`: the first dimension. -/
def NpArray.len (K : Type) : NpArray K → Nat
  | NpArray.arr1 l => l.length
  | NpArray.arr2 rows => rows.length

/-- The numpy shape test `arr.shape == (n, c)` for a rectangular array. -/
def NpArray.hasShape2 (K : Type) (a : NpArray K) (n c : Nat) : Bool :=
  match a with
  | NpArray.arr1 _ => false
  | NpArray.arr2 rows => rows.length == n && rows.all (fun r => r.length == c)

/-- Read an `(n, 1)` column array as its list of scalars. -/
def NpArray.toCol (K : Type) [Zero K] : NpArray K → List K
  | NpArray.arr1 l => l
  | NpArray.arr2 rows => rows.map (fun r => r.getD 0 0)

/-- Read an `(n, 3)` array as a list of `Vec3` rows. -/
def NpArray.toRows3 (K : Type) [Zero K] : NpArray K → List (Vec3 K)
  | NpArray.arr1 _ => []
  | NpArray.arr2 rows => rows.map (fun r => ⟨r.getD 0 0, r.getD 1 0, r.getD 2 0⟩)

/-- Embedding of `ParticleData.__post_init__` (`src/core/particle_data.py`, lines
12–28): with `n = len(masses)`, require `masses.shape == (n, 1)`,
`positions.shape == (n, 3)`, `velocities.shape == (n, 3)`; a missing
`forces` defaults to `np.zeros((n, 3))`, a supplied one must have shape
`(n, 3)`.  The first violated check raises a `ValueError` (the specification
ShapeError) whose message names the offending array; the embedding
returns that message in `Except.error` and a validated `ParticleData`
otherwise. -/
def mkParticleData (K : Type) [Field K]
    (masses positions velocities : NpArray K) (forces : Option (NpArray K)) :
    Except String (ParticleData K) :=
  let n := NpArray.len K masses
  if !(NpArray.hasShape2 K masses n 1) then
    Except.error "masses must have shape (n, 1)"
  else if !(NpArray.hasShape2 K positions n 3) then
    Except.error "position must have shape (n, 3)"
  else if !(NpArray.hasShape2 K velocities n 3) then
    Except.error "velocity must have shape (n, 3)"
  else
    match forces with
    | none =>
        Except.ok
          ⟨NpArray.toCol K masses, NpArray.toRows3 K positions,
            NpArray.toRows3 K velocities, List.replicate n 0⟩
    | some f =>
        if !(NpArray.hasShape2 K f n 3) then
          Except.error "force must have shape (n, 3)"
        else
          Except.ok
            ⟨NpArray.toCol K masses, NpArray.toRows3 K positions,
              NpArray.toRows3 K velocities, NpArray.toRows3 K f⟩

/-- The shape invariant of §3 of the spec, as checked by the code:
masses an `(n, 1)` column, positions and velocities `(n, 3)`, and the
forces array, when supplied, `(n, 3)`, all for `n = len(masses)`. -/
def shapeInvariant (K : Type)
    (masses positions velocities : NpArray K) (forces : Option (NpArray K)) : Prop :=
  NpArray.hasShape2 K masses (NpArray.len K masses) 1 = true ∧
  NpArray.hasShape2 K positions (NpArray.len K masses) 3 = true ∧
  NpArray.hasShape2 K velocities (NpArray.len K masses) 3 = true ∧
  (∀ f, forces = some f → NpArray.hasShape2 K f (NpArray.len K masses) 3 = true)

/-- A heap of numpy buffers, for reasoning about aliasing: each cell
holds one (2-D) array, addresses are list indices, and allocation
appends. -/
abbrev Heap (K : Type) : Type := List (List (List K))

/-- Reading the buffer at an address. -/
def Heap.lookup (K : Type) (h : Heap K) (a : Nat) : List (List K) :=
  h.getD a []

/-- Overwriting (mutating) the buffer at an address. -/
def Heap.write (K : Type) (h : Heap K) (a : Nat) (v : List (List K)) : Heap K :=
  h.set a v

/-- A `ParticleData` object whose four fields are references to heap
buffers, as in Python, where `self.masses` etc. are references to numpy
arrays. -/
structure ParticleDataRef where
  masses : Nat
  positions : Nat
  velocities : Nat
  forces : Nat
deriving DecidableEq, Repr

/-- The four buffer addresses a `ParticleDataRef` can reach. -/
def ParticleDataRef.addrs (r : ParticleDataRef) : List Nat :=
  [r.masses, r.positions, r.velocities, r.forces]

/-- Embedding of `ParticleData.copy` (`src/core/particle_data.py`, lines 34–40):
each numpy `.copy()` of a field allocates a fresh buffer holding the same
values, and the new `ParticleData` is built from the four fresh buffers
(its `__post_init__` re-validation passes because the values are
unchanged).  Allocation is modelled by appending four cells to the
heap. -/
def ParticleDataRef.copy (K : Type) (r : ParticleDataRef) (h : Heap K) :
    ParticleDataRef × Heap K :=
  (⟨h.length, h.length + 1, h.length + 2, h.length + 3⟩,
    h ++ [Heap.lookup K h r.masses, Heap.lookup K h r.positions,
      Heap.lookup K h r.velocities, Heap.lookup K h r.forces])

/-- The `kinetic_energy()` operation of the spec (§4.3): the scalar
`Σᵢ ½·mᵢ·|vᵢ|²`, with `|v|²` the squared Euclidean norm.  Stated from
the words of the spec, to be compared with `calc_keenetic_energy` from
the code. -/
def kineticEnergySpec (K : Type) [Field K] (d : ParticleData K) : K :=
  ∑ i ∈ Finset.range (ParticleData.n_particles K d),
    d.masses.getD i 0 *
      ((d.velocities.getD i 0).x ^ 2 + (d.velocities.getD i 0).y ^ 2 +
        (d.velocities.getD i 0).z ^ 2) / 2

theorem Vec3.ext_comp (K : Type) (a b : Vec3 K)
    (hx : a.x = b.x) (hy : a.y = b.y) (hz : a.z = b.z) : a = b := by
  cases a
  cases b
  cases hx
  cases hy
  cases hz
  rfl

theorem Vec3.add_x (K : Type) [Add K] (a b : Vec3 K) : (a + b).x = a.x + b.x := rfl

theorem Vec3.add_y (K : Type) [Add K] (a b : Vec3 K) : (a + b).y = a.y + b.y := rfl

theorem Vec3.add_z (K : Type) [Add K] (a b : Vec3 K) : (a + b).z = a.z + b.z := rfl

theorem Vec3.sub_x (K : Type) [Sub K] (a b : Vec3 K) : (a - b).x = a.x - b.x := rfl

theorem Vec3.sub_y (K : Type) [Sub K] (a b : Vec3 K) : (a - b).y = a.y - b.y := rfl

theorem Vec3.sub_z (K : Type) [Sub K] (a b : Vec3 K) : (a - b).z = a.z - b.z := rfl

theorem Vec3.neg_x (K : Type) [Neg K] (a : Vec3 K) : (-a).x = -a.x := rfl

theorem Vec3.neg_y (K : Type) [Neg K] (a : Vec3 K) : (-a).y = -a.y := rfl

theorem Vec3.neg_z (K : Type) [Neg K] (a : Vec3 K) : (-a).z = -a.z := rfl

theorem Vec3.mul_x (K : Type) [Mul K] (a b : Vec3 K) : (a * b).x = a.x * b.x := rfl

theorem Vec3.mul_y (K : Type) [Mul K] (a b : Vec3 K) : (a * b).y = a.y * b.y := rfl

theorem Vec3.mul_z (K : Type) [Mul K] (a b : Vec3 K) : (a * b).z = a.z * b.z := rfl

theorem Vec3.divS_x (K : Type) [Div K] (a : Vec3 K) (c : K) : (Vec3.divS K a c).x = a.x / c := rfl

theorem Vec3.divS_y (K : Type) [Div K] (a : Vec3 K) (c : K) : (Vec3.divS K a c).y = a.y / c := rfl

theorem Vec3.divS_z (K : Type) [Div K] (a : Vec3 K) (c : K) : (Vec3.divS K a c).z = a.z / c := rfl

theorem Vec3.smul_x (K : Type) [Mul K] (c : K) (a : Vec3 K) : (c • a).x = c * a.x := rfl

theorem Vec3.smul_y (K : Type) [Mul K] (c : K) (a : Vec3 K) : (c • a).y = c * a.y := rfl

theorem Vec3.smul_z (K : Type) [Mul K] (c : K) (a : Vec3 K) : (c • a).z = c * a.z := rfl

theorem Vec3.zero_x (K : Type) [Zero K] : (0 : Vec3 K).x = 0 := rfl

theorem Vec3.zero_y (K : Type) [Zero K] : (0 : Vec3 K).y = 0 := rfl

theorem Vec3.zero_z (K : Type) [Zero K] : (0 : Vec3 K).z = 0 := rfl

instance (K : Type) [AddCommMonoid K] : AddCommMonoid (Vec3 K) where
  add_assoc a b c := by
    apply Vec3.ext_comp <;>
      simp only [Vec3.add_x, Vec3.add_y, Vec3.add_z, add_assoc]
  zero_add a := by
    apply Vec3.ext_comp <;>
      simp only [Vec3.add_x, Vec3.add_y, Vec3.add_z, Vec3.zero_x, Vec3.zero_y, Vec3.zero_z,
        zero_add]
  add_zero a := by
    apply Vec3.ext_comp <;>
      simp only [Vec3.add_x, Vec3.add_y, Vec3.add_z, Vec3.zero_x, Vec3.zero_y, Vec3.zero_z,
        add_zero]
  add_comm a b := by
    apply Vec3.ext_comp <;>
      simp only [Vec3.add_x, Vec3.add_y, Vec3.add_z, add_comm]
  nsmul := nsmulRec

/-- A left fold whose step function adds a per-index term is the initial
value plus the sum of the terms. -/
theorem foldl_eq_add_sum (M : Type) [AddCommMonoid M] (g : M → Nat → M) (f : Nat → M)
    (hg : ∀ u i, g u i = u + f i) :
    ∀ (l : List Nat) (a : M), l.foldl g a = a + (l.map f).sum := by
  intro l
  induction l with
  | nil => intro a; simp
  | cons b t ih =>
      intro a
      simp only [List.foldl_cons, List.map_cons, List.sum_cons, ih, hg, add_assoc]

/-- Mapping a function over `List.range n` and summing is the
`Finset.range` sum. -/
theorem map_range_sum (M : Type) [AddCommMonoid M] (f : Nat → M) (n : Nat) :
    ((List.range n).map f).sum = ∑ j ∈ Finset.range n, f j := by
  induction n with
  | zero => simp
  | succ n ih =>
      rw [List.range_succ, Finset.sum_range_succ, List.map_append, List.sum_append, ih]
      simp

/-- Summing a family with the `i`-th term replaced by `0` is summing
over the range with `i` erased. -/
theorem sum_range_ite_zero (M : Type) [AddCommMonoid M] (i n : Nat) (f : Nat → M) :
    ∑ j ∈ Finset.range n, (if i = j then 0 else f j) =
      ∑ j ∈ (Finset.range n).erase i, f j := by
  by_cases hin : i < n
  · rw [← Finset.add_sum_erase (Finset.range n) (fun j => if i = j then 0 else f j)
        (Finset.mem_range.mpr hin)]
    rw [if_pos rfl, zero_add]
    exact Finset.sum_congr rfl fun j hj => if_neg (Ne.symm (Finset.ne_of_mem_erase hj))
  · rw [Finset.erase_eq_of_not_mem (fun hmem => hin (Finset.mem_range.mp hmem))]
    refine Finset.sum_congr rfl fun j hj => if_neg fun hij => ?_
    rw [Finset.mem_range] at hj
    omega

/-- The skipping fold of the inner loops of the direct calculator is the sum
over the erased range. -/
theorem foldl_skip_eq_sum_erase (M : Type) [AddCommMonoid M] (p : Nat → M)
    (i n : Nat) (a : M) :
    (List.range n).foldl (fun acc j => if i = j then acc else acc + p j) a =
      a + ∑ j ∈ (Finset.range n).erase i, p j := by
  rw [foldl_eq_add_sum M _ (fun j => if i = j then 0 else p j)
      (fun u j => by by_cases h : i = j <;> simp [h])]
  rw [map_range_sum, sum_range_ite_zero M i n]

theorem magnitude_sub_comm (a b : Vec3 ℝ) : magnitude (a - b) = magnitude (b - a) := by
  unfold magnitude
  congr 1
  simp only [Vec3.sub_x, Vec3.sub_y, Vec3.sub_z]
  ring

theorem pairForce_def (d : ParticleData ℝ) (i j : Nat) :
    DirectForceCalculator.pairForce d i j =
      (G * d.masses.getD i 0 * d.masses.getD j 0 /
          magnitude (d.positions.getD j 0 - d.positions.getD i 0) ^ 3) •
        (d.positions.getD j 0 - d.positions.getD i 0) := rfl

theorem pairPotential_symm (d : ParticleData ℝ) (i j : Nat) :
    DirectForceCalculator.pairPotential d i j = DirectForceCalculator.pairPotential d j i := by
  unfold DirectForceCalculator.pairPotential
  rw [magnitude_sub_comm (d.positions.getD j 0) (d.positions.getD i 0)]
  ring

/-- Off-diagonal double sums of a symmetric family are twice the
lower-triangle double sum. -/
theorem sum_erase_eq_two_mul_lower (f : Nat → Nat → ℝ) (hf : ∀ i j, f i j = f j i) :
    ∀ n : Nat,
      ∑ i ∈ Finset.range n, ∑ j ∈ (Finset.range n).erase i, f i j =
        2 * ∑ i ∈ Finset.range n, ∑ j ∈ Finset.range i, f i j := by
  intro n
  induction n with
  | zero => simp
  | succ n ih =>
      have h1 : (Finset.range (n + 1)).erase n = Finset.range n := by
        rw [Finset.range_succ, Finset.erase_insert (by simp)]
      have h2 : ∀ i ∈ Finset.range n,
          ∑ j ∈ (Finset.range (n + 1)).erase i, f i j =
            f i n + ∑ j ∈ (Finset.range n).erase i, f i j := by
        intro i hi
        rw [Finset.mem_range] at hi
        rw [Finset.range_succ, Finset.erase_insert_of_ne (by omega)]
        exact Finset.sum_insert (by simp)
      rw [Finset.sum_range_succ
        (fun i => ∑ j ∈ (Finset.range (n + 1)).erase i, f i j) n, h1]
      rw [Finset.sum_congr rfl h2, Finset.sum_add_distrib, ih]
      rw [Finset.sum_range_succ (fun i => ∑ j ∈ Finset.range i, f i j) n]
      have h3 : ∑ i ∈ Finset.range n, f i n = ∑ j ∈ Finset.range n, f n j :=
        Finset.sum_congr rfl fun i _ => hf i n
      rw [h3]
      ring

/-- C2.  For every particle state, the spec-modelled
`DirectForceCalculator.calc_force` returns, for each body `i`, the sum
over all `j ≠ i` of `G·mᵢ·mⱼ/|rⱼ−rᵢ|³·(rⱼ−rᵢ)`, with no self-term
included (the diagonal is erased from the index set). -/
theorem calc_force_is_pairwise_sum (d : ParticleData ℝ) :
    DirectForceCalculator.calc_force d =
      (List.range (ParticleData.n_particles ℝ d)).map (fun i =>
        ∑ j ∈ (Finset.range (ParticleData.n_particles ℝ d)).erase i,
          (G * d.masses.getD i 0 * d.masses.getD j 0 /
              magnitude (d.positions.getD j 0 - d.positions.getD i 0) ^ 3) •
            (d.positions.getD j 0 - d.positions.getD i 0)) := by
  unfold DirectForceCalculator.calc_force
  congr 1
  funext i
  rw [foldl_skip_eq_sum_erase (Vec3 ℝ) (DirectForceCalculator.pairForce d i) i
      (ParticleData.n_particles ℝ d) 0, zero_add]
  exact Finset.sum_congr rfl fun j _ => pairForce_def d i j

/-- C6.  The per-pair contribution of the spec-modelled
`DirectForceCalculator.calc_force` is antisymmetric: the force on `i`
from `j` is the negation of the force on `j` from `i`. -/
theorem pairForce_antisymmetric (d : ParticleData ℝ) (i j : Nat) :
    DirectForceCalculator.pairForce d i j = -DirectForceCalculator.pairForce d j i := by
  rw [pairForce_def, pairForce_def]
  rw [magnitude_sub_comm (d.positions.getD j 0) (d.positions.getD i 0)]
  apply Vec3.ext_comp <;>
    simp only [Vec3.smul_x, Vec3.smul_y, Vec3.smul_z, Vec3.neg_x, Vec3.neg_y, Vec3.neg_z,
      Vec3.sub_x, Vec3.sub_y, Vec3.sub_z] <;>
    ring

/-- C3.  The spec-modelled `DirectForceCalculator.calc_potential_energy`
returns one half of the sum over all ordered pairs `i ≠ j` of
`−G·mᵢ·mⱼ/|rⱼ−rᵢ|`, and this equals the sum in which each unordered
pair contributes exactly once (the lower-triangle sum over `j < i`). -/
theorem calc_potential_energy_is_half_pairwise_sum (d : ParticleData ℝ) :
    DirectForceCalculator.calc_potential_energy d =
      (∑ i ∈ Finset.range (ParticleData.n_particles ℝ d),
        ∑ j ∈ (Finset.range (ParticleData.n_particles ℝ d)).erase i,
          -G * d.masses.getD i 0 * d.masses.getD j 0 /
            magnitude (d.positions.getD j 0 - d.positions.getD i 0)) / 2 ∧
    DirectForceCalculator.calc_potential_energy d =
      ∑ i ∈ Finset.range (ParticleData.n_particles ℝ d),
        ∑ j ∈ Finset.range i,
          -G * d.masses.getD i 0 * d.masses.getD j 0 /
            magnitude (d.positions.getD j 0 - d.positions.getD i 0) := by
  have hmain : DirectForceCalculator.calc_potential_energy d =
      (∑ i ∈ Finset.range (ParticleData.n_particles ℝ d),
        ∑ j ∈ (Finset.range (ParticleData.n_particles ℝ d)).erase i,
          DirectForceCalculator.pairPotential d i j) / 2 := by
    unfold DirectForceCalculator.calc_potential_energy
    congr 1
    rw [foldl_eq_add_sum ℝ _
        (fun i => ∑ j ∈ (Finset.range (ParticleData.n_particles ℝ d)).erase i,
          DirectForceCalculator.pairPotential d i j)
        (fun u i => foldl_skip_eq_sum_erase ℝ (DirectForceCalculator.pairPotential d i) i
          (ParticleData.n_particles ℝ d) u)]
    rw [zero_add, map_range_sum]
  constructor
  · rw [hmain]
    rfl
  · rw [hmain, sum_erase_eq_two_mul_lower (fun i j => DirectForceCalculator.pairPotential d i j)
      (pairPotential_symm d)]
    have hc : (2 : ℝ) * (∑ i ∈ Finset.range (ParticleData.n_particles ℝ d),
          ∑ j ∈ Finset.range i, DirectForceCalculator.pairPotential d i j) / 2 =
        ∑ i ∈ Finset.range (ParticleData.n_particles ℝ d),
          ∑ j ∈ Finset.range i, DirectForceCalculator.pairPotential d i j := by
      ring
    rw [hc]
    rfl

/-- C5.  One leapfrog step is exactly kick–drift–kick: forces are
recomputed at the pre-drift positions and half of `forces/masses·dt` is
added to the velocities; the positions then advance by the half-kicked
velocities times `dt`; forces are recomputed on the post-drift state and
a second half-kick is added; the returned system carries the post-drift
positions, the twice-half-kicked velocities, and the forces of the
post-drift state. -/
theorem lf_step_is_kick_drift_kick (K : Type) [Field K] (s : ParticleSystem K) (dt : K) :
    LFIntegrator.step K s dt =
      let m := s.data.masses
      let f1 := s.force_calculator s.data
      let v1 := rowsAdd K s.data.velocities (rowsScale K (dt / 2) (rowsDivCol K f1 m))
      let x1 := rowsAdd K s.data.positions (rowsScale K dt v1)
      let f2 := s.force_calculator ⟨m, x1, v1, f1⟩
      let v2 := rowsAdd K v1 (rowsScale K (dt / 2) (rowsDivCol K f2 m))
      { data := ⟨m, x1, v2, f2⟩, force_calculator := s.force_calculator } := rfl

/-- C9.  The masses column is untouched by every state-changing public
operation of the core: an Euler, leapfrog, or RK4 step (for any `dt` and
any force calculator), and a force recomputation, each leave
`data.masses` — and with it `n_particles` — exactly as they were.  (The
energy accessors are embedded as pure functions of the state and return
scalars, so they cannot change the state at all.) -/
theorem masses_invariant_under_all_operations (K : Type) [Field K]
    (s : ParticleSystem K) (dt : K) :
    (ExplicitEulerIntegrator.step K s dt).data.masses = s.data.masses ∧
    (LFIntegrator.step K s dt).data.masses = s.data.masses ∧
    (RK4Integrator.step K s dt).data.masses = s.data.masses ∧
    (ParticleSystem.calc_forces K s).data.masses = s.data.masses ∧
    ParticleData.n_particles K (ExplicitEulerIntegrator.step K s dt).data =
      ParticleData.n_particles K s.data ∧
    ParticleData.n_particles K (LFIntegrator.step K s dt).data =
      ParticleData.n_particles K s.data ∧
    ParticleData.n_particles K (RK4Integrator.step K s dt).data =
      ParticleData.n_particles K s.data ∧
    ParticleData.n_particles K (ParticleSystem.calc_forces K s).data =
      ParticleData.n_particles K s.data :=
  ⟨rfl, rfl, rfl, rfl, rfl, rfl, rfl, rfl⟩

/-- The one-body state `masses = [[2.0]]`, `positions = [[0,0,0]]`,
`velocities = [[1,2,3]]` (forces zero), over `ℚ`, coupled with a force
calculator stub (the kinetic energy reads no forces). -/
def keeneticExample : ParticleSystem ℚ :=
  { data := ⟨[2], [⟨0, 0, 0⟩], [⟨1, 2, 3⟩], [⟨0, 0, 0⟩]⟩
    force_calculator := fun _ => [] }

/-- C1 (code bug).  At the one-body state with mass `2` and velocity
`(1, 2, 3)`, `calc_keenetic_energy` returns the `(3,)` array
`[1, 4, 9]` — the numpy broadcast of `masses[i] * velocities[i]**2 / 2`
summed componentwise — whereas the `kinetic_energy()` of the spec is the
scalar `Σᵢ ½·mᵢ·|vᵢ|² = 14`.  The own tests of the repository
(`tests/Sun_Earth.py`, `tests/energy_conversation.py`) store this result
into scalar slots of a 1-D buffer, so the code contradicts them. -/
theorem calc_keenetic_energy_returns_componentwise_array :
    ParticleSystem.calc_keenetic_energy ℚ keeneticExample = (⟨1, 4, 9⟩ : Vec3 ℚ) ∧
    kineticEnergySpec ℚ keeneticExample.data = 14 ∧
    (⟨1, 4, 9⟩ : Vec3 ℚ).x + (⟨1, 4, 9⟩ : Vec3 ℚ).y + (⟨1, 4, 9⟩ : Vec3 ℚ).z = 14 := by
  refine ⟨?_, ?_, by norm_num⟩
  · have h0 : ParticleSystem.calc_keenetic_energy ℚ keeneticExample =
        (0 : Vec3 ℚ) + Vec3.divS ℚ ((2 : ℚ) • ((⟨1, 2, 3⟩ : Vec3 ℚ) * ⟨1, 2, 3⟩)) 2 := rfl
    rw [h0]
    apply Vec3.ext_comp <;>
      simp only [Vec3.add_x, Vec3.add_y, Vec3.add_z, Vec3.zero_x, Vec3.zero_y, Vec3.zero_z,
        Vec3.divS_x, Vec3.divS_y, Vec3.divS_z, Vec3.smul_x, Vec3.smul_y, Vec3.smul_z,
        Vec3.mul_x, Vec3.mul_y, Vec3.mul_z] <;>
      norm_num
  · show (∑ i ∈ Finset.range 1, _ : ℚ) = 14
    rw [Finset.sum_range_one]
    norm_num [kineticEnergySpec, keeneticExample]

/-- C4 (amended).  `ParticleData` construction succeeds exactly when the
shape invariant holds — masses an `N×1` column, positions, velocities,
and a supplied forces array of shape `N×3`, for `N = len(masses)` — and
otherwise fails with a ShapeError whose message names the (first)
malformed array; in particular no state object is produced for
mismatched shapes.  (The code requires the masses to be the `N×1`
column, not a flat array of `N` scalars; see the counterexample.) -/
theorem mkParticleData_validates_shapes (K : Type) [Field K]
    (ms ps vs : NpArray K) (fo : Option (NpArray K)) :
    ((∃ d, mkParticleData K ms ps vs fo = Except.ok d) ↔ shapeInvariant K ms ps vs fo) ∧
    (∀ e, mkParticleData K ms ps vs fo = Except.error e →
      (e = "masses must have shape (n, 1)" ∧
          NpArray.hasShape2 K ms (NpArray.len K ms) 1 = false) ∨
      (e = "position must have shape (n, 3)" ∧
          NpArray.hasShape2 K ps (NpArray.len K ms) 3 = false) ∨
      (e = "velocity must have shape (n, 3)" ∧
          NpArray.hasShape2 K vs (NpArray.len K ms) 3 = false) ∨
      (∃ f, fo = some f ∧ e = "force must have shape (n, 3)" ∧
          NpArray.hasShape2 K f (NpArray.len K ms) 3 = false)) := by
  unfold mkParticleData shapeInvariant
  cases fo with
  | none =>
      by_cases h1 : NpArray.hasShape2 K ms (NpArray.len K ms) 1 = true <;>
      by_cases h2 : NpArray.hasShape2 K ps (NpArray.len K ms) 3 = true <;>
      by_cases h3 : NpArray.hasShape2 K vs (NpArray.len K ms) 3 = true <;>
        simp [h1, h2, h3, Bool.not_eq_true] at *
  | some f =>
      by_cases h1 : NpArray.hasShape2 K ms (NpArray.len K ms) 1 = true <;>
      by_cases h2 : NpArray.hasShape2 K ps (NpArray.len K ms) 3 = true <;>
      by_cases h3 : NpArray.hasShape2 K vs (NpArray.len K ms) 3 = true <;>
      by_cases h4 : NpArray.hasShape2 K f (NpArray.len K ms) 3 = true <;>
        simp [h1, h2, h3, h4, Bool.not_eq_true] at *

/-- C4 counterexample.  Construction with `masses` given as a flat 1-D
array of `3` scalars and `positions`, `velocities` of shape `3×3` —
which under the reading of the invariant in the claim (masses N scalars,
positions and velocities N×3) should be accepted — is rejected by the
code with a ShapeError naming the masses: the code requires the
`(n, 1)` column shape. -/
theorem mkParticleData_rejects_flat_masses :
    mkParticleData ℚ (NpArray.arr1 [1, 2, 3])
        (NpArray.arr2 [[0, 0, 0], [1, 0, 0], [2, 0, 0]])
        (NpArray.arr2 [[0, 0, 0], [0, 0, 0], [0, 0, 0]]) none =
      Except.error "masses must have shape (n, 1)" ∧
    NpArray.len ℚ (NpArray.arr1 [1, 2, 3]) = 3 ∧
    NpArray.hasShape2 ℚ (NpArray.arr2 [[0, 0, 0], [1, 0, 0], [2, 0, 0]]) 3 3 = true ∧
    NpArray.hasShape2 ℚ (NpArray.arr2 [[0, 0, 0], [0, 0, 0], [0, 0, 0]]) 3 3 = true :=
  ⟨rfl, rfl, rfl, rfl⟩

/-- C4 witness: at the concrete input with a `3×1` masses column and a
`2×3` positions array (incompatible with 3 bodies), the amended theorem
yields the ShapeError naming the positions; with well-shaped inputs its
iff yields a successful construction. -/
theorem mkParticleData_validates_shapes_witness :
    (∃ d, mkParticleData ℚ (NpArray.arr2 [[1], [2], [3]])
        (NpArray.arr2 [[0, 0, 0], [1, 0, 0], [2, 0, 0]])
        (NpArray.arr2 [[0, 0, 0], [0, 0, 0], [0, 0, 0]]) none = Except.ok d) ∧
    (("position must have shape (n, 3)" = "masses must have shape (n, 1)" ∧
        NpArray.hasShape2 ℚ (NpArray.arr2 [[1], [2], [3]]) 3 1 = false) ∨
      ("position must have shape (n, 3)" = "position must have shape (n, 3)" ∧
        NpArray.hasShape2 ℚ (NpArray.arr2 [[0, 0, 0], [0, 0, 0]]) 3 3 = false) ∨
      ("position must have shape (n, 3)" = "velocity must have shape (n, 3)" ∧
        NpArray.hasShape2 ℚ (NpArray.arr2 [[0, 0, 0], [0, 0, 0], [0, 0, 0]]) 3 3 = false) ∨
      (∃ f, (none : Option (NpArray ℚ)) = some f ∧
        "position must have shape (n, 3)" = "force must have shape (n, 3)" ∧
        NpArray.hasShape2 ℚ f 3 3 = false)) :=
  ⟨(mkParticleData_validates_shapes ℚ (NpArray.arr2 [[1], [2], [3]])
      (NpArray.arr2 [[0, 0, 0], [1, 0, 0], [2, 0, 0]])
      (NpArray.arr2 [[0, 0, 0], [0, 0, 0], [0, 0, 0]]) none).1.mpr
      ⟨rfl, rfl, rfl, fun _ h => nomatch h⟩,
    (mkParticleData_validates_shapes ℚ (NpArray.arr2 [[1], [2], [3]])
      (NpArray.arr2 [[0, 0, 0], [0, 0, 0]])
      (NpArray.arr2 [[0, 0, 0], [0, 0, 0], [0, 0, 0]]) none).2
      "position must have shape (n, 3)" rfl⟩

theorem getD_set_ne (A : Type) (l : List A) (a b : Nat) (v dflt : A) (hab : a ≠ b) :
    (l.set a v).getD b dflt = l.getD b dflt := by
  induction l generalizing a b with
  | nil => rfl
  | cons x t ih =>
      cases a with
      | zero =>
          cases b with
          | zero => exact absurd rfl hab
          | succ b => rfl
      | succ a =>
          cases b with
          | zero => rfl
          | succ b => exact ih a b fun hh => hab (by rw [hh])

theorem getD_append_right_len (A : Type) (l1 l2 : List A) (k : Nat) (dflt : A) :
    (l1 ++ l2).getD (l1.length + k) dflt = l2.getD k dflt := by
  induction l1 with
  | nil => rw [List.nil_append, List.length_nil, Nat.zero_add]
  | cons x t ih =>
      show (x :: (t ++ l2)).getD (t.length + 1 + k) dflt = l2.getD k dflt
      have hidx : t.length + 1 + k = (t.length + k) + 1 := by omega
      rw [hidx]
      exact ih

/-- C8.  `ParticleData.copy` is a deep copy: on any heap in which the
four buffers of the original are live, the four buffers of the copy hold
equal values but lie at addresses disjoint from those of the original,
so writing through any reference of the copy leaves everything reachable
from the original unchanged, and writing through any reference of the original
references leaves everything reachable from the copy unchanged. -/
theorem particle_data_copy_is_deep (K : Type) (h : Heap K) (r : ParticleDataRef)
    (hm : r.masses < h.length) (hp : r.positions < h.length)
    (hv : r.velocities < h.length) (hf : r.forces < h.length) :
    (Heap.lookup K (ParticleDataRef.copy K r h).2 (ParticleDataRef.copy K r h).1.masses =
        Heap.lookup K h r.masses ∧
      Heap.lookup K (ParticleDataRef.copy K r h).2 (ParticleDataRef.copy K r h).1.positions =
        Heap.lookup K h r.positions ∧
      Heap.lookup K (ParticleDataRef.copy K r h).2 (ParticleDataRef.copy K r h).1.velocities =
        Heap.lookup K h r.velocities ∧
      Heap.lookup K (ParticleDataRef.copy K r h).2 (ParticleDataRef.copy K r h).1.forces =
        Heap.lookup K h r.forces) ∧
    (∀ a ∈ ParticleDataRef.addrs (ParticleDataRef.copy K r h).1,
      ∀ b ∈ ParticleDataRef.addrs r, a ≠ b) ∧
    (∀ a ∈ ParticleDataRef.addrs (ParticleDataRef.copy K r h).1, ∀ v,
      ∀ b ∈ ParticleDataRef.addrs r,
        Heap.lookup K (Heap.write K (ParticleDataRef.copy K r h).2 a v) b =
          Heap.lookup K (ParticleDataRef.copy K r h).2 b) ∧
    (∀ b ∈ ParticleDataRef.addrs r, ∀ v,
      ∀ a ∈ ParticleDataRef.addrs (ParticleDataRef.copy K r h).1,
        Heap.lookup K (Heap.write K (ParticleDataRef.copy K r h).2 b v) a =
          Heap.lookup K (ParticleDataRef.copy K r h).2 a) := by
  have hval : ∀ k : Nat,
      Heap.lookup K (ParticleDataRef.copy K r h).2 (h.length + k) =
        (Heap.lookup K h r.masses :: Heap.lookup K h r.positions ::
          Heap.lookup K h r.velocities :: [Heap.lookup K h r.forces]).getD k [] := by
    intro k
    exact getD_append_right_len _ h _ k []
  have haddr : ∀ a ∈ ParticleDataRef.addrs (ParticleDataRef.copy K r h).1,
      h.length ≤ a := by
    intro a ha
    simp only [ParticleDataRef.addrs, ParticleDataRef.copy, List.mem_cons,
      List.not_mem_nil, or_false] at ha
    rcases ha with rfl | rfl | rfl | rfl <;> omega
  have horig : ∀ b ∈ ParticleDataRef.addrs r, b < h.length := by
    intro b hb
    simp only [ParticleDataRef.addrs, List.mem_cons, List.not_mem_nil, or_false] at hb
    rcases hb with rfl | rfl | rfl | rfl <;> assumption
  refine ⟨⟨?_, ?_, ?_, ?_⟩, ?_, ?_, ?_⟩
  · simpa using hval 0
  · simpa using hval 1
  · simpa using hval 2
  · simpa using hval 3
  · intro a ha b hb
    have := haddr a ha
    have := horig b hb
    omega
  · intro a ha v b hb
    exact getD_set_ne _ _ a b v [] (by have := haddr a ha; have := horig b hb; omega)
  · intro b hb v a ha
    exact getD_set_ne _ _ b a v [] (by have := haddr a ha; have := horig b hb; omega)

theorem Vec3.divS_zero (K : Type) [Field K] (c : K) : Vec3.divS K 0 c = 0 := by
  apply Vec3.ext_comp <;>
    simp only [Vec3.divS_x, Vec3.divS_y, Vec3.divS_z, Vec3.zero_x, Vec3.zero_y, Vec3.zero_z,
      zero_div]

theorem Vec3.smul_zero_vec (K : Type) [Field K] (c : K) : c • (0 : Vec3 K) = 0 := by
  apply Vec3.ext_comp <;>
    simp only [Vec3.smul_x, Vec3.smul_y, Vec3.smul_z, Vec3.zero_x, Vec3.zero_y, Vec3.zero_z,
      mul_zero]

theorem rowsDivCol_replicate_zero (K : Type) [Field K] (n : Nat) (m : List K) :
    rowsDivCol K (List.replicate n 0) m = List.replicate (min n m.length) 0 := by
  induction n generalizing m with
  | zero => simp [rowsDivCol]
  | succ n ih =>
      cases m with
      | nil => simp [rowsDivCol]
      | cons c t =>
          have h1 : rowsDivCol K (List.replicate (n + 1) 0) (c :: t) =
              Vec3.divS K 0 c :: rowsDivCol K (List.replicate n 0) t := rfl
          rw [h1, ih t, Vec3.divS_zero]
          have h2 : min (n + 1) ((c :: t).length) = min n t.length + 1 := by
            simp only [List.length_cons]
            omega
          rw [h2, List.replicate_succ]

theorem rowsScale_replicate_zero (K : Type) [Field K] (c : K) (k : Nat) :
    rowsScale K c (List.replicate k 0) = List.replicate k 0 := by
  induction k with
  | zero => rfl
  | succ k ih =>
      simp only [List.replicate_succ, rowsScale, List.map_cons] at *
      rw [Vec3.smul_zero_vec]
      exact congrArg _ ih

theorem rowsAdd_replicate_zero (K : Type) [Field K] (v : List (Vec3 K)) :
    rowsAdd K v (List.replicate v.length 0) = v := by
  induction v with
  | nil => rfl
  | cons a t ih =>
      simp only [List.length_cons, List.replicate_succ, rowsAdd, List.zipWith_cons_cons]
      rw [add_zero]
      exact congrArg _ ih

theorem toCol_length (K : Type) [Zero K] (a : NpArray K) :
    (NpArray.toCol K a).length = NpArray.len K a := by
  cases a <;> simp [NpArray.toCol, NpArray.len]

theorem toRows3_length_of_shape (K : Type) [Zero K] (a : NpArray K) (n : Nat)
    (hsh : NpArray.hasShape2 K a n 3 = true) :
    (NpArray.toRows3 K a).length = n := by
  cases a with
  | arr1 l => simp [NpArray.hasShape2] at hsh
  | arr2 rows =>
      simp only [NpArray.hasShape2, Bool.and_eq_true, beq_iff_eq] at hsh
      simp [NpArray.toRows3, hsh.1]

/-- C10.  A simulation built from a state constructed without a forces
array (so the forces defaulted to the all-zero `(n, 3)` array) performs
no force computation in the driver: the state it holds before the first
step is exactly the constructed one.  Its first step under the explicit
Euler integrator advances the positions by `velocities·dt` but returns
the velocities exactly equal to their initial values, because the Euler
velocity update reads the stored all-zero forces before recomputing
them. -/
theorem simulation_first_euler_step_keeps_velocities (K : Type) [Field K]
    (ms ps vs : NpArray K) (d : ParticleData K)
    (F : ParticleData K → List (Vec3 K)) (dt : K)
    (hmk : mkParticleData K ms ps vs none = Except.ok d)
    (hmass : ∀ m ∈ d.masses, m ≠ 0) :
    Simulation.get_data K (Simulation.init K d ⟨F, ExplicitEulerIntegrator.step K, dt⟩) = d ∧
    d.forces = List.replicate (ParticleData.n_particles K d) 0 ∧
    (Simulation.step K
        (Simulation.init K d ⟨F, ExplicitEulerIntegrator.step K, dt⟩)).system.data.velocities =
      d.velocities ∧
    (Simulation.step K
        (Simulation.init K d ⟨F, ExplicitEulerIntegrator.step K, dt⟩)).system.data.positions =
      rowsAdd K d.positions (rowsScale K dt d.velocities) := by
  simp only [mkParticleData] at hmk
  split_ifs at hmk with h1 h2 h3
  rw [Except.ok.injEq] at hmk
  rw [Bool.not_eq_true, Bool.not_eq_eq_eq_not, Bool.not_false] at h3
  have hvlen : (NpArray.toRows3 K vs).length = NpArray.len K ms :=
    toRows3_length_of_shape K vs (NpArray.len K ms) h3
  subst hmk
  refine ⟨rfl, ?_, ?_, rfl⟩
  · simp [ParticleData.n_particles, toCol_length]
  · have hstep : (Simulation.step K
        (Simulation.init K
          ⟨NpArray.toCol K ms, NpArray.toRows3 K ps, NpArray.toRows3 K vs,
            List.replicate (NpArray.len K ms) 0⟩
          ⟨F, ExplicitEulerIntegrator.step K, dt⟩)).system.data.velocities =
        rowsAdd K (NpArray.toRows3 K vs)
          (rowsScale K dt
            (rowsDivCol K (List.replicate (NpArray.len K ms) 0) (NpArray.toCol K ms))) := rfl
    rw [hstep, rowsDivCol_replicate_zero, toCol_length, Nat.min_self,
      rowsScale_replicate_zero, ← hvlen, rowsAdd_replicate_zero]

/-- A concrete four-buffer heap over `ℚ`: masses `(1, 1)`, positions,
velocities, forces `(1, 3)`. -/
def exampleHeap : Heap ℚ :=
  [[[2]], [[0, 0, 0]], [[1, 2, 3]], [[0, 0, 0]]]

/-- A `ParticleData` object referencing the four buffers of
`exampleHeap`. -/
def exampleRef : ParticleDataRef := ⟨0, 1, 2, 3⟩

/-- C8 witness: on `exampleHeap`, the masses buffer of the copy holds the
original masses values, and overwriting the masses buffer of the copy
(address 4) leaves the original masses buffer (address 0) unchanged. -/
theorem particle_data_copy_is_deep_witness :
    Heap.lookup ℚ (ParticleDataRef.copy ℚ exampleRef exampleHeap).2
        (ParticleDataRef.copy ℚ exampleRef exampleHeap).1.masses =
      Heap.lookup ℚ exampleHeap 0 ∧
    Heap.lookup ℚ (Heap.write ℚ (ParticleDataRef.copy ℚ exampleRef exampleHeap).2 4 [[7]]) 0 =
      Heap.lookup ℚ (ParticleDataRef.copy ℚ exampleRef exampleHeap).2 0 :=
  ⟨(particle_data_copy_is_deep ℚ exampleHeap exampleRef
      (by decide) (by decide) (by decide) (by decide)).1.1,
    (particle_data_copy_is_deep ℚ exampleHeap exampleRef
      (by decide) (by decide) (by decide) (by decide)).2.2.1 4 (by decide) [[7]] 0 (by decide)⟩

/-- A two-body construction input over `ℚ`: masses column `2×1`,
positions and velocities `2×3`, forces not supplied. -/
def exampleMassesArr : NpArray ℚ := NpArray.arr2 [[1], [2]]

/-- Positions for the two-body example. -/
def examplePositionsArr : NpArray ℚ := NpArray.arr2 [[0, 0, 0], [1, 0, 0]]

/-- Velocities for the two-body example. -/
def exampleVelocitiesArr : NpArray ℚ := NpArray.arr2 [[0, 1, 0], [0, 0, 1]]

/-- The state the two-body example constructs (forces defaulted to
zero). -/
def exampleData : ParticleData ℚ :=
  ⟨[1, 2], [⟨0, 0, 0⟩, ⟨1, 0, 0⟩], [⟨0, 1, 0⟩, ⟨0, 0, 1⟩], List.replicate 2 0⟩

/-- C10 witness: for the concrete two-body state constructed without
forces, the first Euler step leaves the velocities exactly equal to
their initial values. -/
theorem simulation_first_euler_step_keeps_velocities_witness :
    mkParticleData ℚ exampleMassesArr examplePositionsArr exampleVelocitiesArr none =
      Except.ok exampleData ∧
    (Simulation.step ℚ (Simulation.init ℚ exampleData
        ⟨fun _ => [], ExplicitEulerIntegrator.step ℚ, (1 / 2 : ℚ)⟩)).system.data.velocities =
      exampleData.velocities :=
  ⟨rfl,
    (simulation_first_euler_step_keeps_velocities ℚ exampleMassesArr examplePositionsArr
      exampleVelocitiesArr exampleData (fun _ => []) (1 / 2) rfl (by decide)).2.2.1⟩
